import Mathlib

/-
Verification of the GPIO abstraction layer in `src/common/GPIOs.hpp`
(namespace `Microtech`), a compile-time hardware abstraction for the
digital I/O ports of the MSP430G2553 microcontroller.

The embedding models the memory-mapped control registers as an explicit
machine state `Mem : Reg → Nat` holding 8-bit values, and each handle
operation as a state transformer, translated directly from the C++ source.
-/

namespace Microtech

/-- `enum class IOPort` — the I/O ports available in the microcontroller. -/
inductive IOPort where
  | PORT_1
  | PORT_2
  | PORT_3
deriving DecidableEq, Repr

/-- `enum class IOState` — the two digital I/O states. -/
inductive IOState where
  | LOW
  | HIGH
deriving DecidableEq, Repr

/-- The memory-mapped hardware registers named by `GPIOs.hpp` (declared by the
device header `msp430g2553.h`).  Ports 1–3 each have DIR, SEL, SEL2, REN, IN
and OUT registers; only ports 1 and 2 have the interrupt registers IE, IES
and IFG — the device has no `P3IE`, `P3IES` or `P3IFG`. -/
inductive Reg where
  | P1DIR | P2DIR | P3DIR
  | P1SEL | P2SEL | P3SEL
  | P1SEL2 | P2SEL2 | P3SEL2
  | P1REN | P2REN | P3REN
  | P1IN | P2IN | P3IN
  | P1OUT | P2OUT | P3OUT
  | P1IE | P2IE
  | P1IES | P2IES
  | P1IFG | P2IFG
deriving DecidableEq, Repr

/-- `GPIORegisters::getPxDir` — the PxDIR register of a port. -/
def getPxDir : IOPort → Reg
  | .PORT_1 => .P1DIR
  | .PORT_2 => .P2DIR
  | .PORT_3 => .P3DIR

/-- `GPIORegisters::getPxSel` — the PxSEL register of a port. -/
def getPxSel : IOPort → Reg
  | .PORT_1 => .P1SEL
  | .PORT_2 => .P2SEL
  | .PORT_3 => .P3SEL

/-- `GPIORegisters::getPxSel2` — the PxSEL2 register of a port. -/
def getPxSel2 : IOPort → Reg
  | .PORT_1 => .P1SEL2
  | .PORT_2 => .P2SEL2
  | .PORT_3 => .P3SEL2

/-- `GPIORegisters::getPxRen` — the PxREN register of a port. -/
def getPxRen : IOPort → Reg
  | .PORT_1 => .P1REN
  | .PORT_2 => .P2REN
  | .PORT_3 => .P3REN

/-- `GPIORegisters::getPxIn` — the PxIN register of a port. -/
def getPxIn : IOPort → Reg
  | .PORT_1 => .P1IN
  | .PORT_2 => .P2IN
  | .PORT_3 => .P3IN

/-- `GPIORegisters::getPxOut` — the PxOUT register of a port. -/
def getPxOut : IOPort → Reg
  | .PORT_1 => .P1OUT
  | .PORT_2 => .P2OUT
  | .PORT_3 => .P3OUT

/-- `GPIORegisters::getPxIe` — the PxIE register of a port.  For `PORT_3`
the source returns `P1IE` ("It will never get here, but there was a
warning."), since the device has no P3IE register. -/
def getPxIe : IOPort → Reg
  | .PORT_1 => .P1IE
  | .PORT_2 => .P2IE
  | .PORT_3 => .P1IE

/-- `GPIORegisters::getPxIes` — the PxIES register of a port; `PORT_3`
falls back to `P1IES` exactly as in the source. -/
def getPxIes : IOPort → Reg
  | .PORT_1 => .P1IES
  | .PORT_2 => .P2IES
  | .PORT_3 => .P1IES

/-- `GPIORegisters::getPxIfg` — the PxIFG register of a port; `PORT_3`
falls back to `P1IFG` exactly as in the source. -/
def getPxIfg : IOPort → Reg
  | .PORT_1 => .P1IFG
  | .PORT_2 => .P2IFG
  | .PORT_3 => .P1IFG

/-- The full bundle of 9 register references the locator resolves for a
port, in the order listed by the spec. -/
def registerSet (port : IOPort) : List Reg :=
  [getPxDir port, getPxSel port, getPxSel2 port, getPxRen port,
   getPxIn port, getPxOut port, getPxIe port, getPxIes port, getPxIfg port]

/-- The 6 non-interrupt registers of a port (present on every port). -/
def nonInterruptRegisterSet (port : IOPort) : List Reg :=
  [getPxDir port, getPxSel port, getPxSel2 port, getPxRen port,
   getPxIn port, getPxOut port]

/-- The machine state: each 8-bit hardware register holds a value (a `Nat`
kept below 256 by the 8-bit operations). -/
abbrev Mem := Reg → Nat

/-- Modelled from the spec: `helpers.hpp` (included by `GPIOs.hpp` but not
among the sources) provides `setRegisterBits(reg, mask)`, which sets in the
register every bit that is set in `mask` (read–modify–write OR). -/
def setRegisterBits (mem : Mem) (r : Reg) (mask : Nat) : Mem :=
  fun r2 => if r2 = r then mem r ||| mask else mem r2

/-- Modelled from the spec: `helpers.hpp`'s `resetRegisterBits(reg, mask)`
clears in the register every bit that is set in `mask` (read–modify–write
AND with the 8-bit complement of the mask). -/
def resetRegisterBits (mem : Mem) (r : Reg) (mask : Nat) : Mem :=
  fun r2 => if r2 = r then mem r &&& (255 ^^^ mask) else mem r2

/-- Modelled from the spec: `helpers.hpp`'s `toggleRegisterBits(reg, mask)`
flips in the register every bit that is set in `mask` (read–modify–write
XOR). -/
def toggleRegisterBits (mem : Mem) (r : Reg) (mask : Nat) : Mem :=
  fun r2 => if r2 = r then mem r ^^^ mask else mem r2

/-- Modelled from the spec: `helpers.hpp`'s `getRegisterBits(reg, mask, pin)`
masks the register value to the pin's bit and shifts it down to bit 0, so
the result is nonzero exactly when the masked value is nonzero. -/
def getRegisterBits (mem : Mem) (r : Reg) (mask : Nat) (pin : Nat) : Nat :=
  (mem r &&& mask) >>> pin

/-- `class IoHandleBase` — the resolved bit mask, pin number and register
references held by a pin handle. -/
structure IoHandleBase where
  mPin : Nat
  mBitMask : Nat
  PxIn : Reg
  PxOut : Reg
  PxDir : Reg
  PxSel : Reg
  PxSel2 : Reg
  PxRen : Reg
  PxIe : Reg
  PxIes : Reg
  PxIfg : Reg
deriving DecidableEq, Repr

/-- The `IoHandleBase(IOPort port, uint8_t desiredPin)` constructor: the bit
mask is `static_cast<uint8_t>(0x01) << desiredPin` stored into the `uint8_t`
member `mBitMask`, i.e. `2 ^ desiredPin` truncated modulo `2 ^ 8`; the nine
register references are resolved through `GPIORegisters`. -/
def mkIoHandleBase (port : IOPort) (desiredPin : Nat) : IoHandleBase where
  mPin := desiredPin
  mBitMask := (1 <<< desiredPin) % 256
  PxIn := getPxIn port
  PxOut := getPxOut port
  PxDir := getPxDir port
  PxSel := getPxSel port
  PxSel2 := getPxSel2 port
  PxRen := getPxRen port
  PxIe := getPxIe port
  PxIes := getPxIes port
  PxIfg := getPxIfg port

/-- The constructor's mask computation `static_cast<uint8_t>(0x01) <<
desiredPin` with the MSP430G2553 target's integer semantics made explicit:
the `uint8_t` operand is promoted to the 16-bit `int` before the shift, so
the shift is defined behavior only for shift counts below 16 — there the
result stored into the 8-bit `mBitMask` member is `2 ^ desiredPin`
truncated modulo `2 ^ 8`.  For a shift count of 16 or more the source has
undefined behavior: no result value exists, modelled as `none`. -/
def shiftMask (desiredPin : Nat) : Option Nat :=
  if desiredPin < 16 then some ((1 <<< desiredPin) % 256) else none

/-- `IoHandleBase::getState` — reads PxIN (which reflects the pin level
regardless of direction), masks to the pin's bit, and returns HIGH when the
result is nonzero, LOW otherwise.  It takes the state but returns none: it
has no side effect on any register. -/
def IoHandleBase.getState (h : IoHandleBase) (mem : Mem) : IOState :=
  if getRegisterBits mem h.PxIn h.mBitMask h.mPin ≠ 0 then IOState.HIGH
  else IOState.LOW

/-- `IoHandleBase::enableInterrupt` — sets the pin's bit in PxIE (enable)
and PxIES (high-to-low edge), then clears it in PxIFG (pending flag). -/
def IoHandleBase.enableInterrupt (h : IoHandleBase) (mem : Mem) : Mem :=
  let m1 := setRegisterBits mem h.PxIe h.mBitMask
  let m2 := setRegisterBits m1 h.PxIes h.mBitMask
  resetRegisterBits m2 h.PxIfg h.mBitMask

/-- `class OutputHandle : public IoHandleBase` — adds no data of its own. -/
structure OutputHandle extends IoHandleBase
deriving DecidableEq, Repr

/-- The `OutputHandle(IOPort port, uint8_t desiredPin)` constructor, which
just forwards to the `IoHandleBase` constructor. -/
def mkOutputHandle (port : IOPort) (desiredPin : Nat) : OutputHandle :=
  ⟨mkIoHandleBase port desiredPin⟩

/-- `OutputHandle::init` — sets the pin's PxDIR bit (output direction) and
clears its PxSEL and PxSEL2 bits (plain digital I/O). -/
def OutputHandle.init (h : OutputHandle) (mem : Mem) : Mem :=
  let m1 := setRegisterBits mem h.PxDir h.mBitMask
  let m2 := resetRegisterBits m1 h.PxSel h.mBitMask
  resetRegisterBits m2 h.PxSel2 h.mBitMask

/-- `OutputHandle::setState(const bool state)` — sets the pin's PxOUT bit
when `state` is true and clears it when false.  Total: it always succeeds. -/
def OutputHandle.setStateBool (h : OutputHandle) (state : Bool) (mem : Mem) : Mem :=
  if state then setRegisterBits mem h.PxOut h.mBitMask
  else resetRegisterBits mem h.PxOut h.mBitMask

/-- `OutputHandle::setState(const IOState state)` — calls the boolean
overload with `state == IOState::HIGH`. -/
def OutputHandle.setState (h : OutputHandle) (state : IOState) (mem : Mem) : Mem :=
  h.setStateBool (state = IOState.HIGH) mem

/-- `OutputHandle::toggle` — flips the pin's PxOUT bit. -/
def OutputHandle.toggle (h : OutputHandle) (mem : Mem) : Mem :=
  toggleRegisterBits mem h.PxOut h.mBitMask

/-- `class InputHandle : public IoHandleBase` — adds no data of its own. -/
structure InputHandle extends IoHandleBase
deriving DecidableEq, Repr

/-- The `InputHandle(IOPort port, uint8_t desiredPin)` constructor, which
just forwards to the `IoHandleBase` constructor. -/
def mkInputHandle (port : IOPort) (desiredPin : Nat) : InputHandle :=
  ⟨mkIoHandleBase port desiredPin⟩

/-- `InputHandle::init` — clears the pin's PxDIR bit (input direction) and
its PxSEL and PxSEL2 bits, then — under the source comment "Enable Pull-Up
resistor!" — RESETS the pin's PxOUT bit and PxREN bit (the source calls
`resetRegisterBits` on both). -/
def InputHandle.init (h : InputHandle) (mem : Mem) : Mem :=
  let m1 := resetRegisterBits mem h.PxDir h.mBitMask
  let m2 := resetRegisterBits m1 h.PxSel h.mBitMask
  let m3 := resetRegisterBits m2 h.PxSel2 h.mBitMask
  let m4 := resetRegisterBits m3 h.PxOut h.mBitMask
  resetRegisterBits m4 h.PxRen h.mBitMask

/-- `GPIOs::getOutputHandle<port, desiredPin>()` — facade factory. -/
def getOutputHandle (port : IOPort) (desiredPin : Nat) : OutputHandle :=
  mkOutputHandle port desiredPin

/-- `GPIOs::getInputHandle<port, desiredPin>()` — facade factory. -/
def getInputHandle (port : IOPort) (desiredPin : Nat) : InputHandle :=
  mkInputHandle port desiredPin

/-- Modelled from the spec: the hardware guarantee that the PxIN register
always reflects the pin voltage.  For a pin whose PxDIR bit is set (output)
the voltage is the driven PxOUT bit; input pins keep their externally driven
PxIN bit.  This step is what hardware performs between a write and a
subsequent read. -/
def hwReflect (mem : Mem) (port : IOPort) : Mem :=
  fun r =>
    if r = getPxIn port then
      (mem (getPxIn port) &&& (255 ^^^ mem (getPxDir port) % 256)) |||
        (mem (getPxOut port) &&& mem (getPxDir port) % 256)
    else mem r

/-! ### Shared bit-level lemmas -/

/-- For a pin number below 8, the stored `uint8_t` bit mask is exactly the
single bit `2 ^ pin`. -/
lemma bitMask_eq_two_pow {pin : Nat} (h : pin < 8) : (1 <<< pin) % 256 = 2 ^ pin := by
  rw [Nat.one_shiftLeft]
  exact Nat.mod_eq_of_lt (Nat.pow_lt_pow_right (by norm_num) h)

/-- For a pin number of 8 or more, truncation to `uint8_t` makes the bit
mask zero. -/
lemma bitMask_eq_zero {pin : Nat} (h : 8 ≤ pin) : (1 <<< pin) % 256 = 0 := by
  rw [Nat.one_shiftLeft]
  have hdvd : (256 : Nat) ∣ 2 ^ pin := by
    have := Nat.pow_dvd_pow 2 h
    simpa using this
  omega

lemma testBit_255 (j : Nat) : (255 : Nat).testBit j = decide (j < 8) := by
  have h : (255 : Nat) = 2 ^ 8 - 1 := rfl
  rw [h, Nat.testBit_two_pow_sub_one]

/-- Effect of the 8-bit AND-NOT used by `resetRegisterBits` on a register
bit position (`j < 8`). -/
lemma testBit_and_comp {x mask : Nat} {j : Nat} (hj : j < 8) :
    (x &&& (255 ^^^ mask)).testBit j = (x.testBit j && !mask.testBit j) := by
  simp [Nat.testBit_and, Nat.testBit_xor, testBit_255, hj]

/-- Masking with a single bit and shifting it down yields the bit itself. -/
lemma getRegisterBits_two_pow (mem : Mem) (r : Reg) (pin : Nat) :
    getRegisterBits mem r (2 ^ pin) pin = ((mem r).testBit pin).toNat := by
  unfold getRegisterBits
  rw [Nat.and_two_pow, Nat.shiftRight_eq_div_pow,
    Nat.mul_div_cancel _ (Nat.two_pow_pos pin)]

lemma setRegisterBits_self (mem : Mem) (r : Reg) (mask : Nat) :
    setRegisterBits mem r mask r = mem r ||| mask := by
  simp [setRegisterBits]

lemma setRegisterBits_ne (mem : Mem) {r r2 : Reg} (mask : Nat) (h : r2 ≠ r) :
    setRegisterBits mem r mask r2 = mem r2 := by
  simp [setRegisterBits, h]

lemma resetRegisterBits_self (mem : Mem) (r : Reg) (mask : Nat) :
    resetRegisterBits mem r mask r = mem r &&& (255 ^^^ mask) := by
  simp [resetRegisterBits]

lemma resetRegisterBits_ne (mem : Mem) {r r2 : Reg} (mask : Nat) (h : r2 ≠ r) :
    resetRegisterBits mem r mask r2 = mem r2 := by
  simp [resetRegisterBits, h]

lemma toggleRegisterBits_self (mem : Mem) (r : Reg) (mask : Nat) :
    toggleRegisterBits mem r mask r = mem r ^^^ mask := by
  simp [toggleRegisterBits]

lemma toggleRegisterBits_ne (mem : Mem) {r r2 : Reg} (mask : Nat) (h : r2 ≠ r) :
    toggleRegisterBits mem r mask r2 = mem r2 := by
  simp [toggleRegisterBits, h]

lemma testBit_setRegisterBits_frame (mem : Mem) (r2 : Reg) (mask : Nat) (r : Reg)
    (j : Nat) (hmask : mask.testBit j = false) :
    (setRegisterBits mem r2 mask r).testBit j = (mem r).testBit j := by
  by_cases h : r = r2
  · subst h; simp [setRegisterBits, Nat.testBit_or, hmask]
  · simp [setRegisterBits, h]

lemma testBit_resetRegisterBits_frame (mem : Mem) (r2 : Reg) (mask : Nat) (r : Reg)
    {j : Nat} (hj : j < 8) (hmask : mask.testBit j = false) :
    (resetRegisterBits mem r2 mask r).testBit j = (mem r).testBit j := by
  by_cases h : r = r2
  · subst h; simp [resetRegisterBits, testBit_and_comp hj, hmask]
  · simp [resetRegisterBits, h]

lemma testBit_toggleRegisterBits_frame (mem : Mem) (r2 : Reg) (mask : Nat) (r : Reg)
    (j : Nat) (hmask : mask.testBit j = false) :
    (toggleRegisterBits mem r2 mask r).testBit j = (mem r).testBit j := by
  by_cases h : r = r2
  · subst h; simp [toggleRegisterBits, Nat.testBit_xor, hmask]
  · simp [toggleRegisterBits, h]

/-! ### Claims about the Register Locator -/

/-- C2 (counterexample): the claim "for every two distinct ports the Register
Locator returns disjoint register sets" is false: ports 1 and 3 are
distinct, yet `getPxIe` returns the same register (`P1IE`) for both — port 3
has no interrupt registers and the source falls back to port 1's. -/
theorem C2_counterexample :
    IOPort.PORT_1 ≠ IOPort.PORT_3 ∧
      ∃ r, r ∈ registerSet IOPort.PORT_1 ∧ r ∈ registerSet IOPort.PORT_3 := by
  exact ⟨by decide, Reg.P1IE, by decide, by decide⟩

/-- C2 (amended): for every two distinct ports, the 6 non-interrupt
registers of one are disjoint from all 9 registers of the other; and when
neither port is PORT_3 (i.e. both are interrupt-capable), the full
9-register sets are disjoint.  The only overlap is PORT_3's interrupt
getters aliasing PORT_1's interrupt registers. -/
theorem C2_registerSets_disjoint (p q : IOPort) (hpq : p ≠ q) :
    (∀ r ∈ nonInterruptRegisterSet p, r ∉ registerSet q) ∧
      (p ≠ IOPort.PORT_3 → q ≠ IOPort.PORT_3 →
        ∀ r ∈ registerSet p, r ∉ registerSet q) := by
  revert hpq
  cases p <;> cases q <;> decide

/-- C2 witness: the amended disjointness at the concrete ports 1 and 2. -/
theorem C2_registerSets_disjoint_witness :
    IOPort.PORT_1 ≠ IOPort.PORT_2 ∧
      ((∀ r ∈ nonInterruptRegisterSet IOPort.PORT_1, r ∉ registerSet IOPort.PORT_2) ∧
        (IOPort.PORT_1 ≠ IOPort.PORT_3 → IOPort.PORT_2 ≠ IOPort.PORT_3 →
          ∀ r ∈ registerSet IOPort.PORT_1, r ∉ registerSet IOPort.PORT_2)) :=
  ⟨by decide, C2_registerSets_disjoint IOPort.PORT_1 IOPort.PORT_2 (by decide)⟩

/-- C8: requesting an interrupt register for PORT_3 (which lacks interrupt
registers) is total in the embedding — the locator functions are defined on
every port — and returns the corresponding PORT_1 interrupt register as the
safe alias, exactly as the source's `default:` fallback does. -/
theorem C8_port3_interrupt_alias :
    getPxIe IOPort.PORT_3 = getPxIe IOPort.PORT_1 ∧
    getPxIes IOPort.PORT_3 = getPxIes IOPort.PORT_1 ∧
    getPxIfg IOPort.PORT_3 = getPxIfg IOPort.PORT_1 ∧
    getPxIe IOPort.PORT_3 = Reg.P1IE ∧
    getPxIes IOPort.PORT_3 = Reg.P1IES ∧
    getPxIfg IOPort.PORT_3 = Reg.P1IFG := by
  decide

/-! ### Claims about the handles -/

/-- C1 (code evaluation at the failing input): for an Input handle on port 2
pin 3, starting from registers with every bit set, `InputHandle::init`
clears direction bit 3 and both select bits 3 as claimed, but it also
CLEARS output-register bit 3 and pull-enable bit 3 — the claim (and the
source's own "Enable Pull-Up resistor!" comment and the constructor's
"@note ... always enabling the internal pull-up resistor") requires both to
end up SET, selecting the internal pull-up. -/
theorem C1_input_init_clears_pullup :
    ((mkInputHandle IOPort.PORT_2 3).init (fun _ => 255) Reg.P2DIR).testBit 3 = false ∧
    ((mkInputHandle IOPort.PORT_2 3).init (fun _ => 255) Reg.P2SEL).testBit 3 = false ∧
    ((mkInputHandle IOPort.PORT_2 3).init (fun _ => 255) Reg.P2SEL2).testBit 3 = false ∧
    ((mkInputHandle IOPort.PORT_2 3).init (fun _ => 255) Reg.P2OUT).testBit 3 = false ∧
    ((mkInputHandle IOPort.PORT_2 3).init (fun _ => 255) Reg.P2REN).testBit 3 = false := by
  decide

/-- C5: `OutputHandle::init` sets the pin's direction bit and clears both
of its function-select bits, for every port and pin; and in the concrete
scenario of port 1 pin 0, after init the direction bit 0 is 1 and both
select bits 0 are 0, after `setState(HIGH)` the output-register bit 0 is 1,
and after a following `toggle()` it is 0. -/
theorem C5_output_init (port : IOPort) (pin : Nat) (mem : Mem) (hpin : pin < 8) :
    ((((mkOutputHandle port pin).init mem) (getPxDir port)).testBit pin = true ∧
     (((mkOutputHandle port pin).init mem) (getPxSel port)).testBit pin = false ∧
     (((mkOutputHandle port pin).init mem) (getPxSel2 port)).testBit pin = false) ∧
    (let h := mkOutputHandle IOPort.PORT_1 0
     let m1 := h.init mem
     let m2 := h.setState IOState.HIGH m1
     let m3 := h.toggle m2
     (m1 Reg.P1DIR).testBit 0 = true ∧
     (m1 Reg.P1SEL).testBit 0 = false ∧
     (m1 Reg.P1SEL2).testBit 0 = false ∧
     (m2 Reg.P1OUT).testBit 0 = true ∧
     (m3 Reg.P1OUT).testBit 0 = false) := by
  constructor
  · cases port <;>
      simp [mkOutputHandle, mkIoHandleBase, OutputHandle.init, setRegisterBits,
        resetRegisterBits, getPxDir, getPxSel, getPxSel2, bitMask_eq_two_pow hpin,
        Nat.testBit_or, testBit_and_comp hpin, Nat.testBit_two_pow_self]
  · simp [mkOutputHandle, mkIoHandleBase, OutputHandle.init, OutputHandle.setState,
      OutputHandle.setStateBool, OutputHandle.toggle, setRegisterBits,
      resetRegisterBits, toggleRegisterBits, getPxDir, getPxSel, getPxSel2, getPxOut,
      bitMask_eq_two_pow (show (0:Nat) < 8 by norm_num), Nat.testBit_or,
      Nat.testBit_xor, testBit_and_comp (show (0:Nat) < 8 by norm_num),
      Nat.testBit_two_pow_self]
    have hodd : (mem Reg.P1OUT ||| 1) % 2 = 1 := by
      have h0 : (mem Reg.P1OUT ||| 1).testBit 0 = true := by
        simp [Nat.testBit_or]
      rw [Nat.testBit_zero, decide_eq_true_eq] at h0
      exact h0
    omega

/-- C5 witness: the general part at port 2 pin 5 and the scenario, both on
the all-zero register state. -/
theorem C5_output_init_witness :
    (5:Nat) < 8 ∧
    ((((((mkOutputHandle IOPort.PORT_2 5).init (fun _ => 0)) (getPxDir IOPort.PORT_2)).testBit 5 = true) ∧
      (((((mkOutputHandle IOPort.PORT_2 5).init (fun _ => 0)) (getPxSel IOPort.PORT_2)).testBit 5 = false)) ∧
      (((((mkOutputHandle IOPort.PORT_2 5).init (fun _ => 0)) (getPxSel2 IOPort.PORT_2)).testBit 5 = false))) ∧
     (let h := mkOutputHandle IOPort.PORT_1 0
      let m1 := h.init (fun _ => 0)
      let m2 := h.setState IOState.HIGH m1
      let m3 := h.toggle m2
      (m1 Reg.P1DIR).testBit 0 = true ∧
      (m1 Reg.P1SEL).testBit 0 = false ∧
      (m1 Reg.P1SEL2).testBit 0 = false ∧
      (m2 Reg.P1OUT).testBit 0 = true ∧
      (m3 Reg.P1OUT).testBit 0 = false)) :=
  ⟨by decide, C5_output_init IOPort.PORT_2 5 (fun _ => 0) (by decide)⟩

/-- C4: `toggle()` flips exactly the pin's output-register bit — the bit is
inverted, and every other (register, bit) pair is unchanged — and two
consecutive toggles restore the whole register state pointwise, hence also
the value `getState` reads back. -/
theorem C4_toggle_involution (port : IOPort) (pin : Nat) (mem : Mem) (hpin : pin < 8) :
    (((mkOutputHandle port pin).toggle mem (getPxOut port)).testBit pin
        = !((mem (getPxOut port)).testBit pin)) ∧
    (∀ (r : Reg) (j : Nat), r ≠ getPxOut port ∨ j ≠ pin →
      (((mkOutputHandle port pin).toggle mem) r).testBit j = (mem r).testBit j) ∧
    (∀ r : Reg,
      (mkOutputHandle port pin).toggle ((mkOutputHandle port pin).toggle mem) r = mem r) ∧
    ((mkOutputHandle port pin).getState
        ((mkOutputHandle port pin).toggle ((mkOutputHandle port pin).toggle mem)) =
      (mkOutputHandle port pin).getState mem) := by
  have hdouble : ∀ r : Reg,
      (mkOutputHandle port pin).toggle ((mkOutputHandle port pin).toggle mem) r = mem r := by
    intro r
    by_cases hr : r = getPxOut port
    · subst hr
      simp [OutputHandle.toggle, toggleRegisterBits, mkOutputHandle, mkIoHandleBase,
        Nat.xor_assoc, Nat.xor_self]
    · simp [OutputHandle.toggle, toggleRegisterBits, mkOutputHandle, mkIoHandleBase, hr]
  refine ⟨?_, ?_, hdouble, ?_⟩
  · simp [OutputHandle.toggle, toggleRegisterBits, mkOutputHandle, mkIoHandleBase,
      bitMask_eq_two_pow hpin, Nat.testBit_xor, Nat.testBit_two_pow_self]
  · intro r j hrj
    by_cases hr : r = getPxOut port
    · subst hr
      have hj : j ≠ pin := by
        rcases hrj with hr2 | hj2
        · exact absurd rfl hr2
        · exact hj2
      simp [OutputHandle.toggle, toggleRegisterBits, mkOutputHandle, mkIoHandleBase,
        bitMask_eq_two_pow hpin, Nat.testBit_xor,
        Nat.testBit_two_pow_of_ne (fun h => hj h.symm)]
    · simp [OutputHandle.toggle, toggleRegisterBits, mkOutputHandle, mkIoHandleBase, hr]
  · show (mkIoHandleBase port pin).getState
        ((mkOutputHandle port pin).toggle ((mkOutputHandle port pin).toggle mem)) =
      (mkIoHandleBase port pin).getState mem
    unfold IoHandleBase.getState getRegisterBits
    rw [hdouble]

/-- C4 witness: port 1 pin 2 on the all-255 register state. -/
theorem C4_toggle_involution_witness :
    (2:Nat) < 8 ∧
    ((((mkOutputHandle IOPort.PORT_1 2).toggle (fun _ => 255) (getPxOut IOPort.PORT_1)).testBit 2
        = !(((fun _ => 255 : Mem) (getPxOut IOPort.PORT_1)).testBit 2)) ∧
     (∀ (r : Reg) (j : Nat), r ≠ getPxOut IOPort.PORT_1 ∨ j ≠ 2 →
       (((mkOutputHandle IOPort.PORT_1 2).toggle (fun _ => 255)) r).testBit j
         = ((fun _ => 255 : Mem) r).testBit j) ∧
     (∀ r : Reg,
       (mkOutputHandle IOPort.PORT_1 2).toggle
           ((mkOutputHandle IOPort.PORT_1 2).toggle (fun _ => 255)) r
         = (fun _ => 255 : Mem) r) ∧
     ((mkOutputHandle IOPort.PORT_1 2).getState
         ((mkOutputHandle IOPort.PORT_1 2).toggle
           ((mkOutputHandle IOPort.PORT_1 2).toggle (fun _ => 255))) =
       (mkOutputHandle IOPort.PORT_1 2).getState (fun _ => 255))) :=
  ⟨by decide, C4_toggle_involution IOPort.PORT_1 2 (fun _ => 255) (by decide)⟩

/-- C6: on an interrupt-capable port (1 or 2), `enableInterrupt` sets the
pin's bit in PxIE and in PxIES (high-to-low edge) and clears it in PxIFG,
so the pending flag for the pin is clear when the call returns.  Both
handle kinds delegate to the same `IoHandleBase::enableInterrupt`. -/
theorem C6_enableInterrupt (port : IOPort) (pin : Nat) (mem : Mem)
    (hport : port = IOPort.PORT_1 ∨ port = IOPort.PORT_2) (hpin : pin < 8) :
    (((mkIoHandleBase port pin).enableInterrupt mem) (getPxIe port)).testBit pin = true ∧
    (((mkIoHandleBase port pin).enableInterrupt mem) (getPxIes port)).testBit pin = true ∧
    (((mkIoHandleBase port pin).enableInterrupt mem) (getPxIfg port)).testBit pin = false ∧
    ((mkOutputHandle port pin).enableInterrupt mem
      = (mkIoHandleBase port pin).enableInterrupt mem) ∧
    ((mkInputHandle port pin).enableInterrupt mem
      = (mkIoHandleBase port pin).enableInterrupt mem) := by
  rcases hport with h | h <;> subst h <;>
    refine ⟨?_, ?_, ?_, rfl, rfl⟩ <;>
      simp [IoHandleBase.enableInterrupt, mkIoHandleBase, setRegisterBits,
        resetRegisterBits, getPxIe, getPxIes, getPxIfg, bitMask_eq_two_pow hpin,
        Nat.testBit_or, testBit_and_comp hpin, Nat.testBit_two_pow_self]

/-- C6 witness: port 2 pin 6 on the all-zero register state. -/
theorem C6_enableInterrupt_witness :
    (IOPort.PORT_2 = IOPort.PORT_1 ∨ IOPort.PORT_2 = IOPort.PORT_2) ∧ (6:Nat) < 8 ∧
    ((((mkIoHandleBase IOPort.PORT_2 6).enableInterrupt (fun _ => 0)) (getPxIe IOPort.PORT_2)).testBit 6 = true ∧
     (((mkIoHandleBase IOPort.PORT_2 6).enableInterrupt (fun _ => 0)) (getPxIes IOPort.PORT_2)).testBit 6 = true ∧
     (((mkIoHandleBase IOPort.PORT_2 6).enableInterrupt (fun _ => 0)) (getPxIfg IOPort.PORT_2)).testBit 6 = false ∧
     ((mkOutputHandle IOPort.PORT_2 6).enableInterrupt (fun _ => 0)
       = (mkIoHandleBase IOPort.PORT_2 6).enableInterrupt (fun _ => 0)) ∧
     ((mkInputHandle IOPort.PORT_2 6).enableInterrupt (fun _ => 0)
       = (mkIoHandleBase IOPort.PORT_2 6).enableInterrupt (fun _ => 0))) :=
  ⟨Or.inr rfl, by decide,
    C6_enableInterrupt IOPort.PORT_2 6 (fun _ => 0) (Or.inr rfl) (by decide)⟩

/-- The value `getRegisterBits` computes is zero exactly when the masked
register value is zero, for the masks `IoHandleBase` builds. -/
lemma getRegisterBits_shift_zero_iff (x pin : Nat) :
    (x &&& (1 <<< pin) % 256) >>> pin = 0 ↔ x &&& (1 <<< pin) % 256 = 0 := by
  rcases Nat.lt_or_ge pin 8 with h | h
  · rw [bitMask_eq_two_pow h, Nat.and_two_pow, Nat.shiftRight_eq_div_pow,
      Nat.mul_div_cancel _ (Nat.two_pow_pos pin)]
    cases hx : x.testBit pin <;> simp
  · rw [bitMask_eq_zero h]
    simp

/-- C7: for every handle (the shared base operation, used unchanged by both
Input and Output handles), `getState` masks the port's input register with
the handle's bit mask and returns LOW exactly when the masked value is zero,
HIGH otherwise.  It is a pure function of the register state: it cannot
fail and modifies nothing (its type returns only the `IOState`). -/
theorem C7_getState_reads_input (port : IOPort) (pin : Nat) (mem : Mem) :
    ((mkIoHandleBase port pin).getState mem = IOState.LOW ↔
      mem (getPxIn port) &&& (mkIoHandleBase port pin).mBitMask = 0) ∧
    ((mkIoHandleBase port pin).getState mem = IOState.HIGH ↔
      ¬ mem (getPxIn port) &&& (mkIoHandleBase port pin).mBitMask = 0) ∧
    ((mkOutputHandle port pin).getState mem = (mkIoHandleBase port pin).getState mem) ∧
    ((mkInputHandle port pin).getState mem = (mkIoHandleBase port pin).getState mem) := by
  have key := getRegisterBits_shift_zero_iff (mem (getPxIn port)) pin
  refine ⟨?_, ?_, rfl, rfl⟩ <;>
    · unfold IoHandleBase.getState getRegisterBits
      simp only [mkIoHandleBase]
      by_cases h : (mem (getPxIn port) &&& (1 <<< pin) % 256) >>> pin = 0
      · simp [h, key.mp h]
      · simp [h]
        exact fun h0 => h (key.mpr h0)

/-- For a pin number below 8, `getState` is exactly the test of the pin's
PxIN bit. -/
lemma getState_eq_testBit (port : IOPort) {pin : Nat} (hpin : pin < 8) (mem : Mem) :
    (mkIoHandleBase port pin).getState mem =
      if (mem (getPxIn port)).testBit pin then IOState.HIGH else IOState.LOW := by
  unfold IoHandleBase.getState
  simp only [mkIoHandleBase, bitMask_eq_two_pow hpin, getRegisterBits_two_pow]
  cases h : (mem (getPxIn port)).testBit pin <;> simp [h]

/-- Reduction modulo 256 preserves the 8 register bit positions. -/
lemma testBit_mod_256 {x j : Nat} (hj : j < 8) : (x % 256).testBit j = x.testBit j := by
  rw [show (256 : Nat) = 2 ^ 8 from rfl, Nat.testBit_mod_two_pow]
  simp [hj]

/-- The hardware-reflection step: for a pin whose direction bit is set
(output), the PxIN bit equals the driven PxOUT bit. -/
lemma hwReflect_testBit_in (mem : Mem) (port : IOPort) {pin : Nat} (hpin : pin < 8)
    (hdir : (mem (getPxDir port)).testBit pin = true) :
    ((hwReflect mem port) (getPxIn port)).testBit pin
      = (mem (getPxOut port)).testBit pin := by
  unfold hwReflect
  rw [if_pos rfl]
  simp [Nat.testBit_or, Nat.testBit_and, Nat.testBit_xor, testBit_255,
    testBit_mod_256 hpin, hpin, hdir]

/-- C3: after `OutputHandle::init`, `setState(HIGH)` sets the pin's PxOUT
bit and a subsequent `getState` — after the hardware has propagated the
driven level to PxIN — returns HIGH; a following `setState(LOW)` clears the
bit and `getState` then returns LOW.  Both writes are total functions:
they always succeed. -/
theorem C3_setState_getState (port : IOPort) (pin : Nat) (mem : Mem) (hpin : pin < 8)
    (m1 m2 m3 : Mem)
    (h1 : m1 = (mkOutputHandle port pin).init mem)
    (h2 : m2 = (mkOutputHandle port pin).setState IOState.HIGH m1)
    (h3 : m3 = (mkOutputHandle port pin).setState IOState.LOW m2) :
    (m2 (getPxOut port)).testBit pin = true ∧
    (mkOutputHandle port pin).getState (hwReflect m2 port) = IOState.HIGH ∧
    (m3 (getPxOut port)).testBit pin = false ∧
    (mkOutputHandle port pin).getState (hwReflect m3 port) = IOState.LOW := by
  subst h3; subst h2; subst h1
  have f1 : ((mkOutputHandle port pin).setState IOState.HIGH
      ((mkOutputHandle port pin).init mem) (getPxOut port)).testBit pin = true := by
    cases port <;>
      simp [mkOutputHandle, mkIoHandleBase, OutputHandle.init, OutputHandle.setState,
        OutputHandle.setStateBool, setRegisterBits, resetRegisterBits,
        getPxDir, getPxSel, getPxSel2, getPxOut, bitMask_eq_two_pow hpin,
        Nat.testBit_or, Nat.testBit_two_pow_self]
  have f2 : ((mkOutputHandle port pin).setState IOState.HIGH
      ((mkOutputHandle port pin).init mem) (getPxDir port)).testBit pin = true := by
    cases port <;>
      simp [mkOutputHandle, mkIoHandleBase, OutputHandle.init, OutputHandle.setState,
        OutputHandle.setStateBool, setRegisterBits, resetRegisterBits,
        getPxDir, getPxSel, getPxSel2, getPxOut, bitMask_eq_two_pow hpin,
        Nat.testBit_or, Nat.testBit_two_pow_self]
  have f3 : ((mkOutputHandle port pin).setState IOState.LOW
      ((mkOutputHandle port pin).setState IOState.HIGH
        ((mkOutputHandle port pin).init mem)) (getPxOut port)).testBit pin = false := by
    cases port <;>
      simp [mkOutputHandle, mkIoHandleBase, OutputHandle.init, OutputHandle.setState,
        OutputHandle.setStateBool, setRegisterBits, resetRegisterBits,
        getPxDir, getPxSel, getPxSel2, getPxOut, bitMask_eq_two_pow hpin,
        Nat.testBit_or, testBit_and_comp hpin, Nat.testBit_two_pow_self]
  have f4 : ((mkOutputHandle port pin).setState IOState.LOW
      ((mkOutputHandle port pin).setState IOState.HIGH
        ((mkOutputHandle port pin).init mem)) (getPxDir port)).testBit pin = true := by
    cases port <;>
      simp [mkOutputHandle, mkIoHandleBase, OutputHandle.init, OutputHandle.setState,
        OutputHandle.setStateBool, setRegisterBits, resetRegisterBits,
        getPxDir, getPxSel, getPxSel2, getPxOut, bitMask_eq_two_pow hpin,
        Nat.testBit_or, testBit_and_comp hpin, Nat.testBit_two_pow_self]
  refine ⟨f1, ?_, f3, ?_⟩
  · show (mkIoHandleBase port pin).getState _ = IOState.HIGH
    rw [getState_eq_testBit port hpin, hwReflect_testBit_in _ _ hpin f2, f1, if_pos rfl]
  · show (mkIoHandleBase port pin).getState _ = IOState.LOW
    rw [getState_eq_testBit port hpin, hwReflect_testBit_in _ _ hpin f4, f3]
    simp

/-- C3 witness: port 1 pin 0 on the all-zero register state, with the three
intermediate register states given by their defining equations. -/
theorem C3_setState_getState_witness :
    (0:Nat) < 8 ∧
    ((((mkOutputHandle IOPort.PORT_1 0).setState IOState.HIGH
        ((mkOutputHandle IOPort.PORT_1 0).init (fun _ => 0))) (getPxOut IOPort.PORT_1)).testBit 0 = true ∧
     (mkOutputHandle IOPort.PORT_1 0).getState
       (hwReflect ((mkOutputHandle IOPort.PORT_1 0).setState IOState.HIGH
         ((mkOutputHandle IOPort.PORT_1 0).init (fun _ => 0))) IOPort.PORT_1) = IOState.HIGH ∧
     (((mkOutputHandle IOPort.PORT_1 0).setState IOState.LOW
        ((mkOutputHandle IOPort.PORT_1 0).setState IOState.HIGH
          ((mkOutputHandle IOPort.PORT_1 0).init (fun _ => 0)))) (getPxOut IOPort.PORT_1)).testBit 0 = false ∧
     (mkOutputHandle IOPort.PORT_1 0).getState
       (hwReflect ((mkOutputHandle IOPort.PORT_1 0).setState IOState.LOW
         ((mkOutputHandle IOPort.PORT_1 0).setState IOState.HIGH
           ((mkOutputHandle IOPort.PORT_1 0).init (fun _ => 0)))) IOPort.PORT_1) = IOState.LOW) :=
  ⟨by decide, C3_setState_getState IOPort.PORT_1 0 (fun _ => 0) (by decide)
    _ _ _ rfl rfl rfl⟩

/-- Every handle operation, at any bit position not selected by the mask
the handle was built with, leaves every register bit unchanged. -/
lemma ops_frame (port : IOPort) (pin : Nat) (mem : Mem) (r : Reg) {j : Nat}
    (hj : j < 8) (hmask : ((1 <<< pin) % 256).testBit j = false) :
    (((mkOutputHandle port pin).setState IOState.HIGH mem) r).testBit j = (mem r).testBit j ∧
    (((mkOutputHandle port pin).setState IOState.LOW mem) r).testBit j = (mem r).testBit j ∧
    (((mkOutputHandle port pin).toggle mem) r).testBit j = (mem r).testBit j ∧
    (((mkOutputHandle port pin).init mem) r).testBit j = (mem r).testBit j ∧
    (((mkInputHandle port pin).init mem) r).testBit j = (mem r).testBit j ∧
    (((mkIoHandleBase port pin).enableInterrupt mem) r).testBit j = (mem r).testBit j := by
  refine ⟨?_, ?_, ?_, ?_, ?_, ?_⟩
  · have e : (mkOutputHandle port pin).setState IOState.HIGH mem
        = setRegisterBits mem (getPxOut port) ((1 <<< pin) % 256) := by
      simp [OutputHandle.setState, OutputHandle.setStateBool, mkOutputHandle, mkIoHandleBase]
    rw [e]
    exact testBit_setRegisterBits_frame _ _ _ _ _ hmask
  · have e : (mkOutputHandle port pin).setState IOState.LOW mem
        = resetRegisterBits mem (getPxOut port) ((1 <<< pin) % 256) := by
      simp [OutputHandle.setState, OutputHandle.setStateBool, mkOutputHandle, mkIoHandleBase]
    rw [e]
    exact testBit_resetRegisterBits_frame _ _ _ _ hj hmask
  · have e : (mkOutputHandle port pin).toggle mem
        = toggleRegisterBits mem (getPxOut port) ((1 <<< pin) % 256) := by
      simp [OutputHandle.toggle, mkOutputHandle, mkIoHandleBase]
    rw [e]
    exact testBit_toggleRegisterBits_frame _ _ _ _ _ hmask
  · have e : (mkOutputHandle port pin).init mem
        = resetRegisterBits
            (resetRegisterBits
              (setRegisterBits mem (getPxDir port) ((1 <<< pin) % 256))
              (getPxSel port) ((1 <<< pin) % 256))
            (getPxSel2 port) ((1 <<< pin) % 256) := by
      simp [OutputHandle.init, mkOutputHandle, mkIoHandleBase]
    rw [e, testBit_resetRegisterBits_frame _ _ _ _ hj hmask,
      testBit_resetRegisterBits_frame _ _ _ _ hj hmask,
      testBit_setRegisterBits_frame _ _ _ _ _ hmask]
  · have e : (mkInputHandle port pin).init mem
        = resetRegisterBits
            (resetRegisterBits
              (resetRegisterBits
                (resetRegisterBits
                  (resetRegisterBits mem (getPxDir port) ((1 <<< pin) % 256))
                  (getPxSel port) ((1 <<< pin) % 256))
                (getPxSel2 port) ((1 <<< pin) % 256))
              (getPxOut port) ((1 <<< pin) % 256))
            (getPxRen port) ((1 <<< pin) % 256) := by
      simp [InputHandle.init, mkInputHandle, mkIoHandleBase]
    rw [e, testBit_resetRegisterBits_frame _ _ _ _ hj hmask,
      testBit_resetRegisterBits_frame _ _ _ _ hj hmask,
      testBit_resetRegisterBits_frame _ _ _ _ hj hmask,
      testBit_resetRegisterBits_frame _ _ _ _ hj hmask,
      testBit_resetRegisterBits_frame _ _ _ _ hj hmask]
  · have e : (mkIoHandleBase port pin).enableInterrupt mem
        = resetRegisterBits
            (setRegisterBits
              (setRegisterBits mem (getPxIe port) ((1 <<< pin) % 256))
              (getPxIes port) ((1 <<< pin) % 256))
            (getPxIfg port) ((1 <<< pin) % 256) := by
      simp [IoHandleBase.enableInterrupt, mkIoHandleBase]
    rw [e, testBit_resetRegisterBits_frame _ _ _ _ hj hmask,
      testBit_setRegisterBits_frame _ _ _ _ _ hmask,
      testBit_setRegisterBits_frame _ _ _ _ _ hmask]

/-- C9 (counterexample): at desiredPin = 16 — inside the claimed range
`8 ≤ desiredPin < 32` — the promoted operand of the constructor's shift is
the target's 16-bit `int`, so the shift count equals the promoted width and
the computation is undefined behavior: it has no defined result at all, in
particular not the claimed 0. -/
theorem C9_counterexample :
    (8:Nat) ≤ 16 ∧ (16:Nat) < 32 ∧ shiftMask 16 = none ∧ shiftMask 16 ≠ some 0 := by
  decide

/-- C9 (amended): the mask computation is defined behavior exactly for
`desiredPin < 16` (the promoted `int` is 16 bits wide on this target), and
there the stored `mBitMask` is `2 ^ desiredPin` reduced modulo `2 ^ 8` (an
8-bit value).  For `desiredPin < 8` it has exactly one bit set — bit number
`desiredPin` — while for `8 ≤ desiredPin < 16` it is 0, and then setState,
toggle, both inits and enableInterrupt leave every register bit unchanged
(`getState` touches no register by its very type: it returns only the
`IOState`).  For `16 ≤ desiredPin` the shift is undefined behavior and no
mask value is guaranteed. -/
theorem C9_bitmask (port : IOPort) (pin : Nat) :
    (pin < 16 →
      shiftMask pin = some (mkIoHandleBase port pin).mBitMask ∧
      (mkIoHandleBase port pin).mBitMask = 2 ^ pin % 256 ∧
      (mkIoHandleBase port pin).mBitMask < 256) ∧
    (16 ≤ pin → shiftMask pin = none) ∧
    (pin < 8 →
      (mkIoHandleBase port pin).mBitMask = 2 ^ pin ∧
      ∀ j : Nat, ((mkIoHandleBase port pin).mBitMask.testBit j = true ↔ j = pin)) ∧
    (8 ≤ pin → pin < 16 →
      (mkIoHandleBase port pin).mBitMask = 0 ∧
      ∀ (mem : Mem) (r : Reg) (j : Nat), j < 8 →
        (((mkOutputHandle port pin).setState IOState.HIGH mem) r).testBit j = (mem r).testBit j ∧
        (((mkOutputHandle port pin).setState IOState.LOW mem) r).testBit j = (mem r).testBit j ∧
        (((mkOutputHandle port pin).toggle mem) r).testBit j = (mem r).testBit j ∧
        (((mkOutputHandle port pin).init mem) r).testBit j = (mem r).testBit j ∧
        (((mkInputHandle port pin).init mem) r).testBit j = (mem r).testBit j ∧
        (((mkIoHandleBase port pin).enableInterrupt mem) r).testBit j = (mem r).testBit j) := by
  refine ⟨fun h16 => ⟨?_, ?_, ?_⟩, fun h16 => ?_,
    fun h8 => ⟨?_, fun j => ?_⟩, fun h8 h16 => ⟨?_, fun mem r j hj => ?_⟩⟩
  · simp [shiftMask, h16, mkIoHandleBase]
  · simp [mkIoHandleBase, Nat.one_shiftLeft]
  · exact Nat.mod_lt _ (by norm_num)
  · rw [shiftMask, if_neg (by omega)]
  · simp [mkIoHandleBase, bitMask_eq_two_pow h8]
  · simp only [mkIoHandleBase]
    rw [bitMask_eq_two_pow h8]
    constructor
    · intro hbit
      by_contra hne
      rw [Nat.testBit_two_pow_of_ne (fun h => hne h.symm)] at hbit
      exact Bool.false_ne_true hbit
    · intro hj
      subst hj
      exact Nat.testBit_two_pow_self
  · simp [mkIoHandleBase, bitMask_eq_zero h8]
  · have hm : ((1 <<< pin) % 256).testBit j = false := by
      rw [bitMask_eq_zero h8]
      exact Nat.zero_testBit j
    exact ops_frame port pin mem r hj hm

/-- C9 witness: pin 3 (defined shift, single-bit mask), pin 10 (defined
shift, zero mask; toggle at bit 0 of P1OUT on the all-255 state changes
nothing) and pin 20 (undefined shift). -/
theorem C9_bitmask_witness :
    ((3:Nat) < 16 ∧ shiftMask 3 = some (mkIoHandleBase IOPort.PORT_1 3).mBitMask) ∧
    ((16:Nat) ≤ 20 ∧ shiftMask 20 = none) ∧
    ((3:Nat) < 8 ∧ (mkIoHandleBase IOPort.PORT_1 3).mBitMask = 2 ^ 3) ∧
    ((8:Nat) ≤ 10 ∧ (10:Nat) < 16 ∧ (mkIoHandleBase IOPort.PORT_1 10).mBitMask = 0 ∧
      (0:Nat) < 8 ∧
      (((mkOutputHandle IOPort.PORT_1 10).toggle (fun _ => 255)) Reg.P1OUT).testBit 0
        = ((fun _ => 255 : Mem) Reg.P1OUT).testBit 0) :=
  ⟨⟨by decide, ((C9_bitmask IOPort.PORT_1 3).1 (by decide)).1⟩,
   ⟨by decide, (C9_bitmask IOPort.PORT_1 20).2.1 (by decide)⟩,
   ⟨by decide, ((C9_bitmask IOPort.PORT_1 3).2.2.1 (by decide)).1⟩,
   by decide, by decide,
   ((C9_bitmask IOPort.PORT_1 10).2.2.2 (by decide) (by decide)).1,
   by decide,
   (((C9_bitmask IOPort.PORT_1 10).2.2.2 (by decide) (by decide)).2
     (fun _ => 255) Reg.P1OUT 0 (by decide)).2.2.1⟩

/-- C10: every handle operation — setState (both levels), toggle, output
and input init, and enableInterrupt — changes only bit positions selected
by the handle's bit mask: at every register and every register bit position
outside the mask, the bit after the operation equals the bit before, so
handles for other pins of the same port are unaffected. -/
theorem C10_operations_frame (port : IOPort) (pin : Nat) (mem : Mem) (r : Reg)
    (j : Nat) (hj : j < 8)
    (hmask : (mkIoHandleBase port pin).mBitMask.testBit j = false) :
    (((mkOutputHandle port pin).setState IOState.HIGH mem) r).testBit j = (mem r).testBit j ∧
    (((mkOutputHandle port pin).setState IOState.LOW mem) r).testBit j = (mem r).testBit j ∧
    (((mkOutputHandle port pin).toggle mem) r).testBit j = (mem r).testBit j ∧
    (((mkOutputHandle port pin).init mem) r).testBit j = (mem r).testBit j ∧
    (((mkInputHandle port pin).init mem) r).testBit j = (mem r).testBit j ∧
    (((mkIoHandleBase port pin).enableInterrupt mem) r).testBit j = (mem r).testBit j := by
  have hm : ((1 <<< pin) % 256).testBit j = false := by
    simpa [mkIoHandleBase] using hmask
  exact ops_frame port pin mem r hj hm

/-- C10 witness: the handle for port 1 pin 1 leaves bit 3 of P1OUT (and
the other registers) untouched, on the all-255 state. -/
theorem C10_operations_frame_witness :
    (3:Nat) < 8 ∧
    (mkIoHandleBase IOPort.PORT_1 1).mBitMask.testBit 3 = false ∧
    ((((mkOutputHandle IOPort.PORT_1 1).setState IOState.HIGH (fun _ => 255)) Reg.P1OUT).testBit 3
        = ((fun _ => 255 : Mem) Reg.P1OUT).testBit 3 ∧
     (((mkOutputHandle IOPort.PORT_1 1).setState IOState.LOW (fun _ => 255)) Reg.P1OUT).testBit 3
        = ((fun _ => 255 : Mem) Reg.P1OUT).testBit 3 ∧
     (((mkOutputHandle IOPort.PORT_1 1).toggle (fun _ => 255)) Reg.P1OUT).testBit 3
        = ((fun _ => 255 : Mem) Reg.P1OUT).testBit 3 ∧
     (((mkOutputHandle IOPort.PORT_1 1).init (fun _ => 255)) Reg.P1OUT).testBit 3
        = ((fun _ => 255 : Mem) Reg.P1OUT).testBit 3 ∧
     (((mkInputHandle IOPort.PORT_1 1).init (fun _ => 255)) Reg.P1OUT).testBit 3
        = ((fun _ => 255 : Mem) Reg.P1OUT).testBit 3 ∧
     (((mkIoHandleBase IOPort.PORT_1 1).enableInterrupt (fun _ => 255)) Reg.P1OUT).testBit 3
        = ((fun _ => 255 : Mem) Reg.P1OUT).testBit 3) :=
  ⟨by decide, by decide,
    C10_operations_frame IOPort.PORT_1 1 (fun _ => 255) Reg.P1OUT 3 (by decide) (by decide)⟩

end Microtech
